import Mathlib

set_option maxRecDepth 40000

/-!
Verification development for the IMAP duplicate remover
(`dublicates_remover.py`).  The Python source is shallowly embedded:

* `decode_folder_name` (source lines 73-106) — the modified UTF-7 folder
  name codec, including a model of CPython's non-strict `base64.b64decode`
  and of the strict `utf-16-be` byte decoder;
* `get_message_hash` (lines 193-201) — the message fingerprint, with a
  complete executable MD5 over `Nat` bytes;
* `process_folder` (lines 203-315) — the per-folder duplicate resolver.
  The IMAP session is modelled by a `FolderEnv` recording, for each
  protocol call the resolver makes, whether it succeeds, returns a
  non-OK status, or raises; the resolver returns both the `folder_stats`
  dictionary and a trace of the mutating/IO calls it issued, so that
  dry-run and cleanup behaviour are visible in theorems.

Machine integers are `Nat` with explicit reduction modulo `2 ^ 32`;
fallible operations return `Option`.  All definitions are executable.
-/

/-! ## Modified UTF-7 folder-name codec (source lines 73-106) -/

/-- Value of one base64 alphabet character, `none` for non-alphabet
characters (which CPython's non-strict decoder discards). -/
def b64Val (c : Char) : Option Nat :=
  if 'A' ≤ c ∧ c ≤ 'Z' then some (c.toNat - 'A'.toNat)
  else if 'a' ≤ c ∧ c ≤ 'z' then some (c.toNat - 'a'.toNat + 26)
  else if '0' ≤ c ∧ c ≤ '9' then some (c.toNat - '0'.toNat + 52)
  else if c = '+' then some 62
  else if c = '/' then some 63
  else none

/-- State of CPython's `binascii.a2b_base64` loop: bytes emitted so far,
position inside the current 4-character quad, pending bits, and the count
of pad characters seen at the current quad position. -/
structure B64St where
  out : List Nat
  quad : Nat
  left : Nat
  pads : Nat
  deriving DecidableEq, Repr

/-- CPython's non-strict base64 decoder (`binascii.a2b_base64` with
`strict_mode=False`): non-alphabet characters are discarded; a `'='` seen
with two or more data characters in the current quad ends the input once
enough padding accumulated; at natural end of input a partially filled
quad is an error (`none`). -/
def b64Run : List Char → B64St → Option (List Nat)
  | [], st => if st.quad = 0 then some st.out else none
  | c :: rest, st =>
    if c = '=' then
      if 2 ≤ st.quad then
        if 4 ≤ st.quad + st.pads + 1 then some st.out
        else b64Run rest { st with pads := st.pads + 1 }
      else b64Run rest st
    else
      match b64Val c with
      | none => b64Run rest st
      | some v =>
        match st.quad with
        | 0 => b64Run rest { out := st.out, quad := 1, left := v, pads := 0 }
        | 1 => b64Run rest { out := st.out ++ [st.left * 4 + v / 16], quad := 2, left := v % 16, pads := 0 }
        | 2 => b64Run rest { out := st.out ++ [st.left * 16 + v / 4], quad := 3, left := v % 4, pads := 0 }
        | _ => b64Run rest { out := st.out ++ [st.left * 64 + v], quad := 0, left := 0, pads := 0 }

/-- `base64.b64decode` on a string argument: the string is first encoded
to ASCII (non-ASCII input raises, i.e. `none`), then decoded
non-strictly. -/
def b64decode (cs : List Char) : Option (List Nat) :=
  if cs.any (fun c => 127 < c.toNat) then none
  else b64Run cs ⟨[], 0, 0, 0⟩

/-- Strict `bytes.decode("utf-16-be")`: big-endian 16-bit units, an odd
byte count or an unpaired surrogate raises (`none`); surrogate pairs
combine into one code point. -/
def utf16beUnits : List Nat → Option (List Nat)
  | [] => some []
  | [_] => none
  | b1 :: b2 :: rest => (utf16beUnits rest).map (fun us => (b1 * 256 + b2) :: us)

/-- Combine UTF-16 code units into characters, rejecting unpaired
surrogates as the strict Python decoder does. -/
def utf16Chars : List Nat → Option (List Char)
  | [] => some []
  | u :: rest =>
    if u < 0xD800 ∨ 0xE000 ≤ u then
      (utf16Chars rest).map (fun cs => Char.ofNat u :: cs)
    else if u < 0xDC00 then
      match rest with
      | u2 :: rest2 =>
        if 0xDC00 ≤ u2 ∧ u2 < 0xE000 then
          (utf16Chars rest2).map
            (fun cs => Char.ofNat (0x10000 + (u - 0xD800) * 1024 + (u2 - 0xDC00)) :: cs)
        else none
      | [] => none
    else none

/-- The `try` body for one escape payload (source lines 90-95): replace
`','` by `'/'`, pad with `'='` to a multiple of four, base64-decode, then
decode the bytes as big-endian UTF-16.  `none` models the `except`
branch. -/
def payloadDecode (seg : List Char) : Option (List Char) :=
  let replaced := seg.map (fun c => if c = ',' then '/' else c)
  let padded := replaced ++ List.replicate ((4 - replaced.length % 4) % 4) '='
  match b64decode padded with
  | none => none
  | some bytes =>
    match utf16beUnits bytes with
    | none => none
    | some us => utf16Chars us

/-- State of the left-to-right scan of `decode_folder_name`: output
accumulated so far and, when inside an escape sequence, the payload
characters collected since the `'&'`. -/
structure ScanSt where
  acc : List Char
  cur : Option (List Char)
  deriving DecidableEq, Repr

/-- One character step of the `decode_folder_name` scan (source lines
79-101).  Outside an escape, `'&'` opens one and any other character is
copied.  Inside an escape, `'-'` terminates it: an empty payload is the
literal `'&'`; otherwise the payload is decoded, a failed payload being
preserved verbatim, markers included. -/
def scanStep (st : ScanSt) (c : Char) : ScanSt :=
  match st.cur with
  | none =>
    if c = '&' then { acc := st.acc, cur := some [] }
    else { acc := st.acc ++ [c], cur := none }
  | some seg =>
    if c = '-' then
      if seg = [] then { acc := st.acc ++ ['&'], cur := none }
      else
        match payloadDecode seg with
        | some txt => { acc := st.acc ++ txt, cur := none }
        | none => { acc := st.acc ++ '&' :: seg ++ ['-'], cur := none }
    else { acc := st.acc, cur := some (seg ++ [c]) }

/-- End of input (`end = len(folder_name)` in the source): a pending
escape with empty payload is the literal `'&'`; a pending non-empty
payload is decoded, a failure preserving `folder_name[i:]` verbatim
(no trailing dash in this case). -/
def scanFinish (st : ScanSt) : List Char :=
  match st.cur with
  | none => st.acc
  | some [] => st.acc ++ ['&']
  | some seg =>
    match payloadDecode seg with
    | some txt => st.acc ++ txt
    | none => st.acc ++ '&' :: seg

/-- The whole scan loop of `decode_folder_name`. -/
def scanGo : List Char → ScanSt → List Char
  | [], st => scanFinish st
  | c :: rest, st => scanGo rest (scanStep st c)

/-- Scan of a character list from the initial state. -/
def scanList (l : List Char) : List Char :=
  scanGo l ⟨[], none⟩

/-- `decode_folder_name` (source lines 73-106): names without the `'&'`
escape marker are returned unchanged; otherwise the scan runs.  The
function is total: every failure of the Python body is handled inside the
scan, so `decode_folder_name` never raises. -/
def decode_folder_name (folder_name : String) : String :=
  if folder_name.data.contains '&' then String.mk (scanList folder_name.data)
  else folder_name

/-! ## Message fingerprint (source lines 170-201)

`get_message_hash` builds `f"{from}|{subject}|{date}|{message_id}"` and
returns the MD5 hex digest of its UTF-8 encoding.  MD5 is implemented
below over `Nat` bytes and words, with 32-bit overflow made explicit by
reduction modulo `2 ^ 32`. -/

/-- `2 ^ 32`, the modulus of MD5 word arithmetic. -/
def M32 : Nat := 4294967296

/-- Bitwise combination of the low `fuel` bits of two naturals;
structural recursion, so it evaluates inside the kernel. -/
def bitw (f : Bool → Bool → Bool) : Nat → Nat → Nat → Nat
  | 0, _, _ => 0
  | k + 1, x, y =>
    (if f (x % 2 == 1) (y % 2 == 1) then 1 else 0) + 2 * bitw f k (x / 2) (y / 2)

/-- 32-bit bitwise and. -/
def and32 (x y : Nat) : Nat := bitw (fun a b => a && b) 32 x y

/-- 32-bit bitwise or. -/
def or32 (x y : Nat) : Nat := bitw (fun a b => a || b) 32 x y

/-- 32-bit bitwise exclusive or. -/
def xor32 (x y : Nat) : Nat := bitw (fun a b => a != b) 32 x y

/-- 32-bit bitwise complement. -/
def not32 (x : Nat) : Nat := (M32 - 1) - x % M32

/-- Rotate a 32-bit word left by `n` bits. -/
def rotl32 (x n : Nat) : Nat := x % 2 ^ (32 - n) * 2 ^ n + x / 2 ^ (32 - n)

/-- The four 32-bit MD5 state words. -/
structure MD5S where
  a : Nat
  b : Nat
  c : Nat
  d : Nat
  deriving DecidableEq, Repr

/-- The MD5 sine-derived round constants. -/
def md5K : List Nat :=
  [0xd76aa478, 0xe8c7b756, 0x242070db, 0xc1bdceee,
   0xf57c0faf, 0x4787c62a, 0xa8304613, 0xfd469501,
   0x698098d8, 0x8b44f7af, 0xffff5bb1, 0x895cd7be,
   0x6b901122, 0xfd987193, 0xa679438e, 0x49b40821,
   0xf61e2562, 0xc040b340, 0x265e5a51, 0xe9b6c7aa,
   0xd62f105d, 0x02441453, 0xd8a1e681, 0xe7d3fbc8,
   0x21e1cde6, 0xc33707d6, 0xf4d50d87, 0x455a14ed,
   0xa9e3e905, 0xfcefa3f8, 0x676f02d9, 0x8d2a4c8a,
   0xfffa3942, 0x8771f681, 0x6d9d6122, 0xfde5380c,
   0xa4beea44, 0x4bdecfa9, 0xf6bb4b60, 0xbebfbc70,
   0x289b7ec6, 0xeaa127fa, 0xd4ef3085, 0x04881d05,
   0xd9d4d039, 0xe6db99e5, 0x1fa27cf8, 0xc4ac5665,
   0xf4292244, 0x432aff97, 0xab9423a7, 0xfc93a039,
   0x655b59c3, 0x8f0ccc92, 0xffeff47d, 0x85845dd1,
   0x6fa87e4f, 0xfe2ce6e0, 0xa3014314, 0x4e0811a1,
   0xf7537e82, 0xbd3af235, 0x2ad7d2bb, 0xeb86d391]

/-- The MD5 per-round left-rotation amounts. -/
def md5S : List Nat :=
  [7, 12, 17, 22, 7, 12, 17, 22, 7, 12, 17, 22, 7, 12, 17, 22,
   5, 9, 14, 20, 5, 9, 14, 20, 5, 9, 14, 20, 5, 9, 14, 20,
   4, 11, 16, 23, 4, 11, 16, 23, 4, 11, 16, 23, 4, 11, 16, 23,
   6, 10, 15, 21, 6, 10, 15, 21, 6, 10, 15, 21, 6, 10, 15, 21]

/-- One of the 64 MD5 rounds on a 16-word message schedule `m`. -/
def md5Round (m : List Nat) (st : MD5S) (i : Nat) : MD5S :=
  let f :=
    if i < 16 then or32 (and32 st.b st.c) (and32 (not32 st.b) st.d)
    else if i < 32 then or32 (and32 st.d st.b) (and32 (not32 st.d) st.c)
    else if i < 48 then xor32 st.b (xor32 st.c st.d)
    else xor32 st.c (or32 st.b (not32 st.d))
  let g :=
    if i < 16 then i % 16
    else if i < 32 then (5 * i + 1) % 16
    else if i < 48 then (3 * i + 5) % 16
    else 7 * i % 16
  let t := (f + st.a + md5K.getD i 0 + m.getD g 0) % M32
  { a := st.d, b := (st.b + rotl32 t (md5S.getD i 0)) % M32, c := st.b, d := st.c }

/-- Process one 64-byte block: little-endian words, 64 rounds, then the
Davies–Meyer feed-forward additions modulo `2 ^ 32`. -/
def md5Block (st : MD5S) (block : List Nat) : MD5S :=
  let m := (List.range 16).map (fun j =>
    block.getD (4 * j) 0 + 256 * block.getD (4 * j + 1) 0 +
      65536 * block.getD (4 * j + 2) 0 + 16777216 * block.getD (4 * j + 3) 0)
  let e := (List.range 64).foldl (md5Round m) st
  { a := (st.a + e.a) % M32, b := (st.b + e.b) % M32,
    c := (st.c + e.c) % M32, d := (st.d + e.d) % M32 }

/-- MD5 padding: `0x80`, zeros to 56 mod 64, then the bit length as a
little-endian 64-bit quantity. -/
def md5Pad (bs : List Nat) : List Nat :=
  bs ++ [128] ++ List.replicate ((120 - (bs.length + 1) % 64) % 64) 0 ++
    (List.range 8).map (fun j => 8 * bs.length % 2 ^ 64 / 256 ^ j % 256)

/-- The MD5 initial state. -/
def md5IV : MD5S := ⟨0x67452301, 0xefcdab89, 0x98badcfe, 0x10325476⟩

/-- The 128-bit MD5 digest of a byte sequence, read as a natural number
whose base-256 digits are the digest bytes in output order. -/
def md5nat (bs : List Nat) : Nat :=
  let p := md5Pad bs
  let st := (List.range (p.length / 64)).foldl
    (fun s i => md5Block s ((p.drop (64 * i)).take 64)) md5IV
  st.a + M32 * st.b + M32 ^ 2 * st.c + M32 ^ 3 * st.d

/-- Lowercase hex character of a value below 16. -/
def hexChar (n : Nat) : Char :=
  if n < 10 then Char.ofNat ('0'.toNat + n) else Char.ofNat ('a'.toNat + n - 10)

/-- Two lowercase hex characters of one byte. -/
def byteHex (b : Nat) : List Char := [hexChar (b / 16), hexChar (b % 16)]

/-- `hashlib.md5(...).hexdigest()`: the 16 digest bytes in output order,
each as two lowercase hex characters. -/
def md5hex (bs : List Nat) : String :=
  String.mk (((List.range 16).map (fun j => byteHex (md5nat bs / 256 ^ j % 256))).flatten)

/-- UTF-8 encoding of one character as `Nat` bytes. -/
def charUtf8 (c : Char) : List Nat :=
  let n := c.toNat
  if n < 128 then [n]
  else if n < 2048 then [192 + n / 64, 128 + n % 64]
  else if n < 65536 then [224 + n / 4096, 128 + n / 64 % 64, 128 + n % 64]
  else [240 + n / 262144, 128 + n / 4096 % 64, 128 + n / 64 % 64, 128 + n % 64]

/-- `str.encode("utf-8")` as a list of `Nat` bytes. -/
def utf8Encode (s : String) : List Nat := (s.data.map charUtf8).flatten

/-- A fetched message, as far as `get_message_hash` consumes it: the four
envelope headers, `none` when the header is absent.  Header values are
carried as already-decoded Unicode text. -/
structure Msg where
  from_header : Option String
  subject : Option String
  date : Option String
  message_id : Option String
  deriving DecidableEq, Repr

/-- `decode_header_value` (source lines 170-191) delegates to the
standard library RFC 2047 parser, which returns a header value that
contains no encoded words unchanged.  Header values in this model are
carried as already-decoded plain Unicode strings, on which the function
is the identity. -/
def decode_header_value (header_value : String) : String := header_value

/-- The string `f"{from_header}|{subject}|{date}|{message_id}"` hashed by
`get_message_hash` (source line 200); a missing header contributes the
empty string via `msg.get(..., '')`. -/
def uniqueStr (m : Msg) : String :=
  decode_header_value (m.from_header.getD "") ++ "|" ++
    decode_header_value (m.subject.getD "") ++ "|" ++
    m.date.getD "" ++ "|" ++ m.message_id.getD ""

/-- `get_message_hash` (source lines 193-201): MD5 hex digest of the
UTF-8 encoded joined header string. -/
def get_message_hash (m : Msg) : String :=
  md5hex (utf8Encode (uniqueStr m))

/-! ## Per-folder duplicate resolver (source lines 203-315)

`process_folder` talks to the IMAP session through `connect`, `select`,
`search`, `fetch`, `store` and `expunge`.  A `FolderEnv` fixes the
behaviour of each of those calls for one folder snapshot: success with a
value, a non-OK status, or a raised exception.  The resolver's value is a
`FolderResult`: the `folder_stats` dictionary of the source plus a trace
of the calls issued, so that dry-run purity and session cleanup are
observable. -/

/-- Outcome of one `mail.fetch` call: parsed message, non-OK status, or a
raised exception. -/
inductive FetchOutcome where
  | ok (m : Msg)
  | bad
  | exn
  deriving DecidableEq, Repr

/-- Outcome of the `mail.search(None, 'ALL')` call: the list of message
handles, a non-OK status, or a raised exception. -/
inductive SearchOutcome where
  | ok (ids : List Nat)
  | bad
  | exn
  deriving DecidableEq, Repr

/-- One folder snapshot: the behaviour of every session call the resolver
makes.  `connectOk = false` means `self.connect()` raises; `selectOk =
false` covers both a non-OK select status and select raising (the source
coalesces the two); `storeFails` lists handles whose
`mail.store(..., '+FLAGS', '\\Deleted')` raises; `expungeOk = false`
means `mail.expunge()` raises. -/
structure FolderEnv where
  connectOk : Bool
  selectOk : Bool
  searchOut : SearchOutcome
  fetchOut : List (Nat × FetchOutcome)
  storeFails : List Nat
  expungeOk : Bool
  deriving DecidableEq, Repr

/-- The fetch outcome the snapshot assigns to one message handle. -/
def fetchOf (env : FolderEnv) (i : Nat) : FetchOutcome :=
  (env.fetchOut.lookup i).getD .bad

/-- Whether the fetch of handle `i` succeeds. -/
def isFetchOk (env : FolderEnv) (i : Nat) : Bool :=
  match fetchOf env i with
  | .ok _ => true
  | _ => false

/-- Whether the fetch of handle `i` raises. -/
def isFetchExn (env : FolderEnv) (i : Nat) : Bool :=
  match fetchOf env i with
  | .exn => true
  | _ => false

/-- Whether marking handle `i` for deletion succeeds. -/
def storeOkP (env : FolderEnv) (i : Nat) : Bool :=
  ! env.storeFails.contains i

/-- The `folder_stats` dictionary built by `process_folder` (source lines
206-212). -/
structure FolderStats where
  folder : String
  total : Nat
  duplicates : Nat
  deleted : Nat
  errors : Nat
  deriving DecidableEq, Repr

/-- Trace of the session calls `process_folder` issues: whether search
ran, which handles were fetched (in order), which handles `mail.store`
was called on (in order), whether `mail.expunge` was called, and whether
the `finally` block's `close`/`logout` ran. -/
structure FolderTrace where
  searched : Bool
  fetchCalls : List Nat
  storeCalls : List Nat
  expungeTried : Bool
  closed : Bool
  deriving DecidableEq, Repr

/-- Value of one `process_folder` call: its stats and its call trace. -/
structure FolderResult where
  stats : FolderStats
  trace : FolderTrace
  deriving DecidableEq, Repr

/-- Append a freshly hashed handle into `hash_to_ids` (a
`defaultdict(list)` iterated in insertion order): an existing bucket for
the hash grows at its end, otherwise a new bucket is appended. -/
def insertGroup (gs : List (String × List Nat)) (h : String) (i : Nat) :
    List (String × List Nat) :=
  match gs with
  | [] => [(h, [i])]
  | (k, l) :: rest =>
    if k = h then (k, l ++ [i]) :: rest else (k, l) :: insertGroup rest h i

/-- The fetch loop (source lines 253-270): each handle is fetched once; a
successful fetch is hashed into `hash_to_ids`; a non-OK status is skipped
silently (`continue`); a raised exception increments the error counter.
Returns the groups and the error count accumulated so far. -/
def fetchPhase (env : FolderEnv) :
    List Nat → List (String × List Nat) × Nat → List (String × List Nat) × Nat
  | [], acc => acc
  | i :: rest, acc =>
    match fetchOf env i with
    | .ok m => fetchPhase env rest (insertGroup acc.1 (get_message_hash m) i, acc.2)
    | .bad => fetchPhase env rest acc
    | .exn => fetchPhase env rest (acc.1, acc.2 + 1)

/-- The fingerprint groups built from a handle list. -/
def buildGroups (env : FolderEnv) (ids : List Nat) : List (String × List Nat) :=
  (fetchPhase env ids ([], 0)).1

/-- All handles appearing in the groups, in bucket order. -/
def groupIds (gs : List (String × List Nat)) : List Nat :=
  gs.flatMap (fun g => g.2)

/-- The deletion candidates: every bucket member except the first. -/
def dupTargets (gs : List (String × List Nat)) : List Nat :=
  gs.flatMap (fun g => g.2.tail)

/-- `duplicates_count` as summed by the source: each bucket contributes
its size minus one (a singleton bucket contributes nothing). -/
def sumDups (gs : List (String × List Nat)) : Nat :=
  (gs.map (fun g => g.2.length - 1)).sum

/-- Accumulator of the deletion loop (source lines 275-288):
`duplicates_count`, `deleted_count`, the `mail.store` calls issued, and
the errors counted in the loop. -/
structure DedupAcc where
  dup : Nat
  deleted : Nat
  calls : List Nat
  errs : Nat
  deriving DecidableEq, Repr

/-- The inner `for duplicate_id in ids[1:]` loop in live mode: each
candidate gets one `mail.store` call; success increments
`deleted_count`, a raised store increments the error counter. -/
def storeLoop (env : FolderEnv) : List Nat → DedupAcc → DedupAcc
  | [], acc => acc
  | d :: rest, acc =>
    if env.storeFails.contains d then
      storeLoop env rest { acc with calls := acc.calls ++ [d], errs := acc.errs + 1 }
    else
      storeLoop env rest { acc with deleted := acc.deleted + 1, calls := acc.calls ++ [d] }

/-- The deletion loop over the groups (source lines 278-288): buckets
with more than one member add their size minus one to
`duplicates_count`; in live mode every member but the first gets a store
call, in dry-run mode no call is issued. -/
def dedupPhase (env : FolderEnv) (dry_run : Bool) :
    List (String × List Nat) → DedupAcc → DedupAcc
  | [], acc => acc
  | g :: rest, acc =>
    if 1 < g.2.length then
      let acc' := { acc with dup := acc.dup + (g.2.length - 1) }
      if dry_run then dedupPhase env dry_run rest acc'
      else dedupPhase env dry_run rest (storeLoop env g.2.tail acc')
    else dedupPhase env dry_run rest acc

/-- `process_folder` (source lines 203-315).  Mirrors the source's
control flow: a raising `connect` is caught by the outer handler (one
error, no session to close); a failed select returns the zeroed stats
with no error recorded; a non-OK search returns zeroed stats, a raising
search is caught by the outer handler; an empty folder returns early
with its total; otherwise the fetch and deletion loops run, and
`mail.expunge()` is called only in live mode with at least one
successful deletion — if it raises, the outer handler catches it before
`folder_stats['duplicates']`/`['deleted']` are assigned, so both remain
zero while the error count grows by one.  The `finally` block closes the
session whenever `connect` returned one. -/
def processFolder (env : FolderEnv) (folder_name : String) (dry_run : Bool) :
    FolderResult :=
  if env.connectOk then
    if env.selectOk then
      match env.searchOut with
      | .bad =>
        { stats := ⟨folder_name, 0, 0, 0, 0⟩,
          trace := ⟨true, [], [], false, true⟩ }
      | .exn =>
        { stats := ⟨folder_name, 0, 0, 0, 1⟩,
          trace := ⟨true, [], [], false, true⟩ }
      | .ok ids =>
        if ids.length = 0 then
          { stats := ⟨folder_name, 0, 0, 0, 0⟩,
            trace := ⟨true, [], [], false, true⟩ }
        else
          let fp := fetchPhase env ids ([], 0)
          let d := dedupPhase env dry_run fp.1 ⟨0, 0, [], 0⟩
          if dry_run = false ∧ 0 < d.deleted then
            if env.expungeOk then
              { stats := ⟨folder_name, ids.length, d.dup, d.deleted, fp.2 + d.errs⟩,
                trace := ⟨true, ids, d.calls, true, true⟩ }
            else
              { stats := ⟨folder_name, ids.length, 0, 0, fp.2 + d.errs + 1⟩,
                trace := ⟨true, ids, d.calls, true, true⟩ }
          else
            { stats := ⟨folder_name, ids.length, d.dup, d.deleted, fp.2 + d.errs⟩,
              trace := ⟨true, ids, d.calls, false, true⟩ }
    else
      { stats := ⟨folder_name, 0, 0, 0, 0⟩,
        trace := ⟨false, [], [], false, true⟩ }
  else
    { stats := ⟨folder_name, 0, 0, 0, 1⟩,
      trace := ⟨false, [], [], false, false⟩ }

/-! ## Concrete folder snapshots used by the claim witnesses and
counterexamples -/

/-- Snapshot for the grouping/deletion policy example: four messages
fetched in order, the second and fourth duplicating the first. -/
def envC1w : FolderEnv :=
  { connectOk := true, selectOk := true, searchOut := .ok [1, 2, 3, 4],
    fetchOut :=
      [(1, .ok ⟨some "alice@x", some "hi", some "Mon", some "<1@x>"⟩),
       (2, .ok ⟨some "alice@x", some "hi", some "Mon", some "<1@x>"⟩),
       (3, .ok ⟨some "carol@x", some "yo", some "Tue", some "<2@x>"⟩),
       (4, .ok ⟨some "alice@x", some "hi", some "Mon", some "<1@x>"⟩)],
    storeFails := [], expungeOk := true }

/-- Snapshot with one duplicate pair whose live-mode expunge raises. -/
def envC1x : FolderEnv :=
  { connectOk := true, selectOk := true, searchOut := .ok [1, 2],
    fetchOut :=
      [(1, .ok ⟨some "dave@x", some "dup", some "Wed", some "<d@x>"⟩),
       (2, .ok ⟨some "dave@x", some "dup", some "Wed", some "<d@x>"⟩)],
    storeFails := [], expungeOk := false }

/-- Snapshot with one duplicate pair, all mutations succeeding. -/
def envC2w : FolderEnv :=
  { connectOk := true, selectOk := true, searchOut := .ok [1, 2],
    fetchOut :=
      [(1, .ok ⟨some "erin@x", some "re", some "Thu", some "<e@x>"⟩),
       (2, .ok ⟨some "erin@x", some "re", some "Thu", some "<e@x>"⟩)],
    storeFails := [], expungeOk := true }

/-- Snapshot with one duplicate pair whose live-mode expunge raises. -/
def envC2x : FolderEnv :=
  { connectOk := true, selectOk := true, searchOut := .ok [1, 2],
    fetchOut :=
      [(1, .ok ⟨some "finn@x", some "fw", some "Fri", some "<f@x>"⟩),
       (2, .ok ⟨some "finn@x", some "fw", some "Fri", some "<f@x>"⟩)],
    storeFails := [], expungeOk := false }

/-- Snapshot whose folder select fails. -/
def envC3w : FolderEnv :=
  { connectOk := true, selectOk := false, searchOut := .ok [7],
    fetchOut := [], storeFails := [], expungeOk := true }

/-- Snapshot whose folder select fails. -/
def envC3x : FolderEnv :=
  { connectOk := true, selectOk := false, searchOut := .ok [9],
    fetchOut := [], storeFails := [], expungeOk := true }

/-- Snapshot with one raising fetch and one non-OK fetch among four. -/
def envC5w : FolderEnv :=
  { connectOk := true, selectOk := true, searchOut := .ok [1, 2, 3, 4],
    fetchOut :=
      [(1, .ok ⟨some "gail@x", some "a", some "Sat", some "<g@x>"⟩),
       (2, .exn), (3, .bad),
       (4, .ok ⟨some "gail@x", some "a", some "Sat", some "<g@x>"⟩)],
    storeFails := [], expungeOk := true }

/-- Snapshot in which every fetch returns a non-OK status. -/
def envC5x : FolderEnv :=
  { connectOk := true, selectOk := true, searchOut := .ok [1, 2],
    fetchOut := [(1, .bad), (2, .bad)],
    storeFails := [], expungeOk := true }

/-- Snapshot with three handles: one fetch succeeds, one returns non-OK,
one raises. -/
def envC9w : FolderEnv :=
  { connectOk := true, selectOk := true, searchOut := .ok [1, 2, 3],
    fetchOut :=
      [(1, .ok ⟨some "hugh@x", some "b", some "Sun", some "<h@x>"⟩),
       (2, .bad), (3, .exn)],
    storeFails := [], expungeOk := true }

/-- Snapshot with one triplicated message and one raising store call. -/
def envC10w : FolderEnv :=
  { connectOk := true, selectOk := true, searchOut := .ok [1, 2, 3],
    fetchOut :=
      [(1, .ok ⟨some "iris@x", some "c", some "Mon", some "<i@x>"⟩),
       (2, .ok ⟨some "iris@x", some "c", some "Mon", some "<i@x>"⟩),
       (3, .ok ⟨some "iris@x", some "c", some "Mon", some "<i@x>"⟩)],
    storeFails := [3], expungeOk := true }

/-- Snapshot with one duplicate pair whose live-mode expunge raises. -/
def envC10x : FolderEnv :=
  { connectOk := true, selectOk := true, searchOut := .ok [1, 2],
    fetchOut :=
      [(1, .ok ⟨some "jack@x", some "d", some "Tue", some "<j@x>"⟩),
       (2, .ok ⟨some "jack@x", some "d", some "Tue", some "<j@x>"⟩)],
    storeFails := [], expungeOk := false }

/-! ## Helper lemmas -/

theorem listCancelLeft {α : Type} : ∀ (t a b : List α), t ++ a = t ++ b → a = b := by
  intro t
  induction t with
  | nil => intro a b h; simpa using h
  | cons x xs ih =>
    intro a b h
    apply ih
    simpa using h

theorem listCancelRight {α : Type} (a b t : List α) (h : a ++ t = b ++ t) : a = b := by
  have h' := congrArg List.reverse h
  simp only [List.reverse_append] at h'
  have h'' := listCancelLeft _ _ _ h'
  simpa using congrArg List.reverse h''

theorem stringDataInj {s₁ s₂ : String} (h : s₁.data = s₂.data) : s₁ = s₂ := by
  cases s₁
  cases s₂
  exact congrArg String.mk h

/-- Every field of a processed MD5 state is a reduced 32-bit word. -/
def md5Bounded (st : MD5S) : Prop :=
  st.a < M32 ∧ st.b < M32 ∧ st.c < M32 ∧ st.d < M32

theorem md5Block_bounded (st : MD5S) (block : List Nat) :
    md5Bounded (md5Block st block) := by
  refine ⟨?_, ?_, ?_, ?_⟩ <;> exact Nat.mod_lt _ (by norm_num [M32])

theorem foldl_md5Block_bounded (g : Nat → List Nat) :
    ∀ (l : List Nat) (st : MD5S), md5Bounded st →
      md5Bounded (l.foldl (fun s i => md5Block s (g i)) st)
  | [], _, h => h
  | _ :: rest, st, _ => by
    simpa using foldl_md5Block_bounded g rest _ (md5Block_bounded st _)

theorem md5nat_lt (bs : List Nat) : md5nat bs < M32 ^ 4 := by
  unfold md5nat
  have hb : md5Bounded ((List.range ((md5Pad bs).length / 64)).foldl
      (fun s i => md5Block s (((md5Pad bs).drop (64 * i)).take 64)) md5IV) := by
    apply foldl_md5Block_bounded
    refine ⟨?_, ?_, ?_, ?_⟩ <;> norm_num [md5IV, M32]
  obtain ⟨ha, hb', hc, hd⟩ := hb
  simp only [M32] at ha hb' hc hd ⊢
  norm_num
  omega

theorem filterPartition {α : Type} (p : α → Bool) :
    ∀ l : List α, (l.filter (fun a => ! p a)).length + (l.filter p).length = l.length := by
  intro l
  induction l with
  | nil => rfl
  | cons x xs ih =>
    rw [List.filter_cons, List.filter_cons]
    cases hx : p x
    · rw [if_pos (by simp [hx]), if_neg (by simp [hx])]
      simp only [List.length_cons]
      omega
    · rw [if_neg (by simp [hx]), if_pos (by simp [hx])]
      simp only [List.length_cons]
      omega

theorem groupIds_nil : groupIds [] = [] := rfl

theorem groupIds_cons (g : String × List Nat) (rest : List (String × List Nat)) :
    groupIds (g :: rest) = g.2 ++ groupIds rest := rfl

theorem dupTargets_nil : dupTargets [] = [] := rfl

theorem dupTargets_cons (g : String × List Nat) (rest : List (String × List Nat)) :
    dupTargets (g :: rest) = g.2.tail ++ dupTargets rest := rfl

theorem sumDups_nil : sumDups [] = 0 := rfl

theorem sumDups_cons (g : String × List Nat) (rest : List (String × List Nat)) :
    sumDups (g :: rest) = (g.2.length - 1) + sumDups rest := by
  simp [sumDups]

theorem storeLoop_eq (env : FolderEnv) :
    ∀ (dids : List Nat) (acc : DedupAcc),
      storeLoop env dids acc =
        ⟨acc.dup, acc.deleted + (dids.filter (storeOkP env)).length,
          acc.calls ++ dids,
          acc.errs + (dids.filter (fun i => env.storeFails.contains i)).length⟩ := by
  intro dids
  induction dids with
  | nil => intro acc; simp [storeLoop]
  | cons d rest ih =>
    intro acc
    simp only [storeLoop]
    by_cases hd : env.storeFails.contains d
    · rw [if_pos hd, ih]
      have h1 : (d :: rest).filter (storeOkP env) = rest.filter (storeOkP env) := by
        rw [List.filter_cons, if_neg (by simp [storeOkP]; simpa using hd)]
      have h2 : (d :: rest).filter (fun i => env.storeFails.contains i) =
          d :: rest.filter (fun i => env.storeFails.contains i) := by
        rw [List.filter_cons, if_pos (by simpa using hd)]
      rw [h1, h2]
      simp [List.append_assoc, List.singleton_append]
      omega
    · rw [if_neg hd, ih]
      have h1 : (d :: rest).filter (storeOkP env) = d :: rest.filter (storeOkP env) := by
        rw [List.filter_cons, if_pos (by simp [storeOkP]; simpa using hd)]
      have h2 : (d :: rest).filter (fun i => env.storeFails.contains i) =
          rest.filter (fun i => env.storeFails.contains i) := by
        rw [List.filter_cons, if_neg (by simpa using hd)]
      rw [h1, h2]
      simp [List.append_assoc, List.singleton_append]
      omega

theorem shortTail {l : List Nat} (h : ¬ 1 < l.length) : l.tail = [] := by
  cases l with
  | nil => rfl
  | cons y ys =>
    rw [List.tail_cons]
    rw [List.length_cons] at h
    exact List.length_eq_zero.mp (by omega)

theorem dedup_live (env : FolderEnv) :
    ∀ (gs : List (String × List Nat)) (acc : DedupAcc),
      dedupPhase env false gs acc =
        ⟨acc.dup + sumDups gs,
          acc.deleted + ((dupTargets gs).filter (storeOkP env)).length,
          acc.calls ++ dupTargets gs,
          acc.errs + ((dupTargets gs).filter (fun i => env.storeFails.contains i)).length⟩ := by
  intro gs
  induction gs with
  | nil => intro acc; simp [dedupPhase, sumDups_nil, dupTargets_nil]
  | cons g rest ih =>
    intro acc
    by_cases hg : 1 < g.2.length
    · simp only [dedupPhase, if_pos hg, Bool.false_eq_true, if_neg (by simp : ¬False)]
      rw [storeLoop_eq, ih, sumDups_cons, dupTargets_cons]
      simp [List.filter_append, List.append_assoc]
      omega
    · have htail : g.2.tail = [] := shortTail hg
      have hlen : g.2.length - 1 = 0 := by omega
      simp only [dedupPhase, if_neg hg]
      rw [ih, sumDups_cons, dupTargets_cons]
      simp [htail, hlen]

theorem dedup_dry (env : FolderEnv) :
    ∀ (gs : List (String × List Nat)) (acc : DedupAcc),
      dedupPhase env true gs acc =
        ⟨acc.dup + sumDups gs, acc.deleted, acc.calls, acc.errs⟩ := by
  intro gs
  induction gs with
  | nil => intro acc; simp [dedupPhase, sumDups_nil]
  | cons g rest ih =>
    intro acc
    by_cases hg : 1 < g.2.length
    · simp only [dedupPhase, if_pos hg, if_pos rfl]
      rw [ih, sumDups_cons]
      simp
      omega
    · have hlen : g.2.length - 1 = 0 := by omega
      simp only [dedupPhase, if_neg hg]
      rw [ih, sumDups_cons]
      simp [hlen]

theorem fetchPhase_errs (env : FolderEnv) :
    ∀ (ids : List Nat) (gs : List (String × List Nat)) (n : Nat),
      (fetchPhase env ids (gs, n)).2 = n + (ids.filter (isFetchExn env)).length := by
  intro ids
  induction ids with
  | nil => intro gs n; simp [fetchPhase]
  | cons i rest ih =>
    intro gs n
    simp only [fetchPhase]
    cases hf : fetchOf env i <;>
      simp [hf, ih, isFetchExn, List.filter_cons] <;>
      omega

theorem groupIds_insertGroup (h : String) (i : Nat) :
    ∀ gs, (groupIds (insertGroup gs h i)).Perm (i :: groupIds gs) := by
  intro gs
  induction gs with
  | nil => simp [insertGroup, groupIds]
  | cons g rest ih =>
    obtain ⟨k, l⟩ := g
    by_cases hk : k = h
    · simp only [insertGroup, if_pos hk, groupIds_cons]
      have he : (l ++ [i]) ++ groupIds rest = l ++ i :: groupIds rest := by simp
      rw [he]
      exact List.perm_middle
    · simp only [insertGroup, if_neg hk, groupIds_cons]
      exact ((ih).append_left l).trans List.perm_middle

theorem fetchPhase_perm (env : FolderEnv) :
    ∀ (ids : List Nat) (gs : List (String × List Nat)) (n : Nat),
      (groupIds (fetchPhase env ids (gs, n)).1).Perm
        (groupIds gs ++ ids.filter (isFetchOk env)) := by
  intro ids
  induction ids with
  | nil => intro gs n; simp [fetchPhase]
  | cons i rest ih =>
    intro gs n
    simp only [fetchPhase]
    cases hf : fetchOf env i with
    | ok m =>
      have hfilter : (i :: rest).filter (isFetchOk env) =
          i :: rest.filter (isFetchOk env) := by
        simp [List.filter_cons, isFetchOk, hf]
      rw [hfilter]
      have h1 := ih (insertGroup gs (get_message_hash m) i) n
      have h2 := (groupIds_insertGroup (get_message_hash m) i gs).append_right
        (rest.filter (isFetchOk env))
      exact h1.trans (h2.trans List.perm_middle.symm)
    | bad =>
      have hfilter : (i :: rest).filter (isFetchOk env) =
          rest.filter (isFetchOk env) := by
        simp [List.filter_cons, isFetchOk, hf]
      rw [hfilter]
      exact ih gs n
    | exn =>
      have hfilter : (i :: rest).filter (isFetchOk env) =
          rest.filter (isFetchOk env) := by
        simp [List.filter_cons, isFetchOk, hf]
      rw [hfilter]
      exact ih gs (n + 1)

theorem buildGroups_perm (env : FolderEnv) (ids : List Nat) :
    (groupIds (buildGroups env ids)).Perm (ids.filter (isFetchOk env)) := by
  have h := fetchPhase_perm env ids [] 0
  rw [groupIds_nil] at h
  simpa [buildGroups] using h

theorem dupTargets_length :
    ∀ gs : List (String × List Nat), (dupTargets gs).length = sumDups gs := by
  intro gs
  induction gs with
  | nil => rfl
  | cons g rest ih =>
    rw [dupTargets_cons, List.length_append, List.length_tail, sumDups_cons, ih]

theorem dupTargets_subset :
    ∀ (gs : List (String × List Nat)) (x : Nat), x ∈ dupTargets gs → x ∈ groupIds gs := by
  intro gs
  induction gs with
  | nil => intro x hx; rw [dupTargets_nil] at hx; exact absurd hx (List.not_mem_nil x)
  | cons g rest ih =>
    intro x hx
    rw [dupTargets_cons, List.mem_append] at hx
    rw [groupIds_cons, List.mem_append]
    rcases hx with hx | hx
    · exact Or.inl (List.mem_of_mem_tail hx)
    · exact Or.inr (ih x hx)

theorem head_not_target :
    ∀ gs : List (String × List Nat), (groupIds gs).Nodup →
      ∀ g ∈ gs, ∀ (x : Nat) (t : List Nat), g.2 = x :: t → x ∉ dupTargets gs := by
  intro gs
  induction gs with
  | nil => intro _ g hg; exact absurd hg (List.not_mem_nil g)
  | cons g0 rest ih =>
    intro hnd g hg x t hxt
    rw [groupIds_cons, List.nodup_append] at hnd
    obtain ⟨h0, hrest, hdisj⟩ := hnd
    intro hmem
    rw [dupTargets_cons, List.mem_append] at hmem
    rcases List.mem_cons.mp hg with hgg | hgg
    · subst hgg
      have hx0 : x ∈ g.2 := by rw [hxt]; exact List.mem_cons_self x t
      rcases hmem with hm | hm
      · rw [hxt] at h0 hm
        simp only [List.tail_cons] at hm
        exact (List.nodup_cons.mp h0).1 hm
      · exact hdisj hx0 (dupTargets_subset rest x hm)
    · have hx0 : x ∈ groupIds rest := by
        rw [groupIds, List.mem_flatMap]
        exact ⟨g, hgg, by rw [hxt]; exact List.mem_cons_self x t⟩
      rcases hmem with hm | hm
      · exact hdisj (List.mem_of_mem_tail hm) hx0
      · exact ih hrest g hgg x t hxt hm

theorem scanStep_acc (A B : List Char) (cu : Option (List Char)) (c : Char) :
    scanStep ⟨A ++ B, cu⟩ c = ⟨A ++ (scanStep ⟨B, cu⟩ c).acc, (scanStep ⟨B, cu⟩ c).cur⟩ := by
  cases cu with
  | none =>
    by_cases hc : c = '&' <;> simp [scanStep, hc, List.append_assoc]
  | some seg =>
    by_cases hc : c = '-'
    · cases hseg : seg with
      | nil => simp [scanStep, hc, List.append_assoc]
      | cons s ss =>
        cases hp : payloadDecode (s :: ss) <;>
          simp [scanStep, hc, hp, List.append_assoc]
    · simp [scanStep, hc]

theorem scanFinish_acc (A B : List Char) (cu : Option (List Char)) :
    scanFinish ⟨A ++ B, cu⟩ = A ++ scanFinish ⟨B, cu⟩ := by
  cases cu with
  | none => simp [scanFinish]
  | some seg =>
    cases hseg : seg with
    | nil => simp [scanFinish, List.append_assoc]
    | cons s ss =>
      cases hp : payloadDecode (s :: ss) <;> simp [scanFinish, hp, List.append_assoc]

theorem scanGo_acc : ∀ (l A B : List Char) (cu : Option (List Char)),
    scanGo l ⟨A ++ B, cu⟩ = A ++ scanGo l ⟨B, cu⟩ := by
  intro l
  induction l with
  | nil => intro A B cu; exact scanFinish_acc A B cu
  | cons c rest ih =>
    intro A B cu
    show scanGo rest (scanStep ⟨A ++ B, cu⟩ c) = A ++ scanGo rest (scanStep ⟨B, cu⟩ c)
    rw [scanStep_acc]
    exact ih A (scanStep ⟨B, cu⟩ c).acc (scanStep ⟨B, cu⟩ c).cur

theorem scanGo_acc0 (l A : List Char) (cu : Option (List Char)) :
    scanGo l ⟨A, cu⟩ = A ++ scanGo l ⟨[], cu⟩ := by
  have h := scanGo_acc l A [] cu
  simpa using h

theorem scanGo_nonAmp : ∀ (pre l : List Char), pre.contains '&' = false →
    scanGo (pre ++ l) ⟨[], none⟩ = pre ++ scanGo l ⟨[], none⟩ := by
  intro pre
  induction pre with
  | nil => intro l _; rfl
  | cons c pre' ih =>
    intro l h
    rw [List.contains_cons, Bool.or_eq_false_iff] at h
    obtain ⟨h1, h2⟩ := h
    have hc : ¬ c = '&' := by
      intro hceq
      subst hceq
      simp at h1
    show scanGo (pre' ++ l) (scanStep ⟨[], none⟩ c) = (c :: pre') ++ scanGo l ⟨[], none⟩
    have hstep : scanStep ⟨[], none⟩ c = ⟨[c], none⟩ := by
      simp [scanStep, hc]
    rw [hstep, scanGo_acc0, ih l h2]
    simp

theorem scanGo_collect : ∀ (seg s0 l : List Char), seg.contains '-' = false →
    scanGo (seg ++ l) ⟨[], some s0⟩ = scanGo l ⟨[], some (s0 ++ seg)⟩ := by
  intro seg
  induction seg with
  | nil => intro s0 l _; simp
  | cons c seg' ih =>
    intro s0 l h
    rw [List.contains_cons, Bool.or_eq_false_iff] at h
    obtain ⟨h1, h2⟩ := h
    have hc : ¬ c = '-' := by
      intro hceq
      subst hceq
      simp at h1
    show scanGo (seg' ++ l) (scanStep ⟨[], some s0⟩ c) = _
    have hstep : scanStep ⟨[], some s0⟩ c = ⟨[], some (s0 ++ [c])⟩ := by
      simp [scanStep, hc]
    rw [hstep, ih (s0 ++ [c]) l h2]
    simp [List.append_assoc]

theorem contains_amp (l r : List Char) : (l ++ '&' :: r).contains '&' = true := by
  induction l with
  | nil => simp [List.contains_cons]
  | cons c l' ih => simp [List.contains_cons, ih]

theorem dataAppend (s t : String) : (s ++ t).data = s.data ++ t.data := by
  cases s
  cases t
  rfl

theorem dataMk (l : List Char) : (String.mk l).data = l := rfl

theorem uniqueStr_some (f s d mid : String) :
    uniqueStr ⟨some f, some s, some d, some mid⟩ =
      f ++ "|" ++ s ++ "|" ++ d ++ "|" ++ mid := rfl

theorem uniqueStr_from_ne (f₁ f₂ s d mid : String) (h : f₁ ≠ f₂) :
    uniqueStr ⟨some f₁, some s, some d, some mid⟩ ≠
      uniqueStr ⟨some f₂, some s, some d, some mid⟩ := by
  intro he
  apply h
  have hd := congrArg String.data he
  rw [uniqueStr_some, uniqueStr_some] at hd
  simp only [dataAppend, List.append_assoc] at hd
  exact stringDataInj (listCancelRight _ _ _ hd)

theorem uniqueStr_subject_ne (f s₁ s₂ d mid : String) (h : s₁ ≠ s₂) :
    uniqueStr ⟨some f, some s₁, some d, some mid⟩ ≠
      uniqueStr ⟨some f, some s₂, some d, some mid⟩ := by
  intro he
  apply h
  have hd := congrArg String.data he
  rw [uniqueStr_some, uniqueStr_some] at hd
  simp only [dataAppend, List.append_assoc] at hd
  have h1 := listCancelLeft _ _ _ hd
  have h2 := listCancelLeft _ _ _ h1
  exact stringDataInj (listCancelRight _ _ _ h2)

theorem uniqueStr_date_ne (f s d₁ d₂ mid : String) (h : d₁ ≠ d₂) :
    uniqueStr ⟨some f, some s, some d₁, some mid⟩ ≠
      uniqueStr ⟨some f, some s, some d₂, some mid⟩ := by
  intro he
  apply h
  have hd := congrArg String.data he
  rw [uniqueStr_some, uniqueStr_some] at hd
  simp only [dataAppend, List.append_assoc] at hd
  have h1 := listCancelLeft _ _ _ hd
  have h2 := listCancelLeft _ _ _ h1
  have h3 := listCancelLeft _ _ _ h2
  have h4 := listCancelLeft _ _ _ h3
  exact stringDataInj (listCancelRight _ _ _ h4)

theorem uniqueStr_mid_ne (f s d mid₁ mid₂ : String) (h : mid₁ ≠ mid₂) :
    uniqueStr ⟨some f, some s, some d, some mid₁⟩ ≠
      uniqueStr ⟨some f, some s, some d, some mid₂⟩ := by
  intro he
  apply h
  have hd := congrArg String.data he
  rw [uniqueStr_some, uniqueStr_some] at hd
  simp only [dataAppend, List.append_assoc] at hd
  have h1 := listCancelLeft _ _ _ hd
  have h2 := listCancelLeft _ _ _ h1
  have h3 := listCancelLeft _ _ _ h2
  have h4 := listCancelLeft _ _ _ h3
  have h5 := listCancelLeft _ _ _ h4
  have h6 := listCancelLeft _ _ _ h5
  exact stringDataInj h6

theorem hash_eq_of_md5nat {m₁ m₂ : Msg}
    (h : md5nat (utf8Encode (uniqueStr m₁)) = md5nat (utf8Encode (uniqueStr m₂))) :
    get_message_hash m₁ = get_message_hash m₂ := by
  unfold get_message_hash md5hex
  rw [h]

theorem processFolder_run_dry (env : FolderEnv) (f : String) (ids : List Nat)
    (hc : env.connectOk = true) (hs : env.selectOk = true)
    (hq : env.searchOut = .ok ids) :
    processFolder env f true =
      ⟨⟨f, ids.length, sumDups (buildGroups env ids), 0,
         (ids.filter (isFetchExn env)).length⟩,
       ⟨true, ids, [], false, true⟩⟩ := by
  by_cases hz : ids.length = 0
  · have hids : ids = [] := List.length_eq_zero.mp hz
    subst hids
    simp [processFolder, hc, hs, hq, buildGroups, fetchPhase, sumDups_nil]
  · simp only [processFolder, hc, hs, hq, if_neg hz, if_true]
    rw [dedup_dry]
    have hbg : (fetchPhase env ids ([], 0)).1 = buildGroups env ids := rfl
    rw [hbg, fetchPhase_errs]
    simp

theorem processFolder_run_live (env : FolderEnv) (f : String) (ids : List Nat)
    (hc : env.connectOk = true) (hs : env.selectOk = true)
    (hq : env.searchOut = .ok ids) (hx : env.expungeOk = true) :
    processFolder env f false =
      ⟨⟨f, ids.length, sumDups (buildGroups env ids),
         ((dupTargets (buildGroups env ids)).filter (storeOkP env)).length,
         (ids.filter (isFetchExn env)).length +
           ((dupTargets (buildGroups env ids)).filter
             (fun i => env.storeFails.contains i)).length⟩,
       ⟨true, ids, dupTargets (buildGroups env ids),
         (if 0 < ((dupTargets (buildGroups env ids)).filter (storeOkP env)).length
          then true else false),
         true⟩⟩ := by
  by_cases hz : ids.length = 0
  · have hids : ids = [] := List.length_eq_zero.mp hz
    subst hids
    simp [processFolder, hc, hs, hq, buildGroups, fetchPhase, sumDups_nil,
      dupTargets_nil]
  · simp only [processFolder, hc, hs, hq, if_neg hz, if_true]
    rw [dedup_live]
    have hbg : (fetchPhase env ids ([], 0)).1 = buildGroups env ids := rfl
    rw [hbg, fetchPhase_errs]
    by_cases hdel :
        0 < ((dupTargets (buildGroups env ids)).filter (storeOkP env)).length
    · simp [hdel, hx]
    · simp [hdel]

/-! ## Claim theorems -/

/-- C1, counterexample: on the snapshot `envC1x` (one duplicate pair, a
raising expunge) the live run returns `duplicatesFound = 0` although its
fingerprint groups hold one duplicate (sum of sizes minus one is 1) and
the duplicate was marked — the claim's equality fails for this processed
folder. -/
theorem C1_counterexample :
    (processFolder envC1x "INBOX" false).stats.duplicates = 0 ∧
      sumDups (buildGroups envC1x [1, 2]) = 1 ∧
      (processFolder envC1x "INBOX" false).trace.storeCalls = [2] := by
  decide

/-- C1, amended: provided select and search succeed, the handles are
distinct and the final expunge does not raise, a live run issues store
calls on exactly the concatenated tails of the fingerprint groups (so
the first member of every group is retained and never marked), and
`duplicatesFound` equals the sum over all groups of (size - 1). -/
theorem C1_amended_first_retained (env : FolderEnv) (f : String) (ids : List Nat)
    (hc : env.connectOk = true) (hs : env.selectOk = true)
    (hq : env.searchOut = .ok ids) (hx : env.expungeOk = true)
    (hnd : ids.Nodup) :
    (processFolder env f false).stats.duplicates = sumDups (buildGroups env ids) ∧
      (processFolder env f false).trace.storeCalls = dupTargets (buildGroups env ids) ∧
      (∀ g ∈ buildGroups env ids, ∀ (x : Nat) (t : List Nat), g.2 = x :: t →
        x ∉ dupTargets (buildGroups env ids)) := by
  rw [processFolder_run_live env f ids hc hs hq hx]
  refine ⟨rfl, rfl, ?_⟩
  have hperm := buildGroups_perm env ids
  have hfil : (ids.filter (isFetchOk env)).Nodup := hnd.filter _
  have hgnd : (groupIds (buildGroups env ids)).Nodup := hperm.nodup_iff.mpr hfil
  exact head_not_target _ hgnd

/-- C1, witness: the folder fetched as [A, B(dup of A), C, D(dup of A)]
(handles 1-4): A and C are retained, B and D are marked, and
`duplicatesFound = 2`. -/
theorem C1_witness :
    (processFolder envC1w "INBOX" false).stats.duplicates = 2 ∧
      (processFolder envC1w "INBOX" false).trace.storeCalls = [2, 4] ∧
      1 ∉ (processFolder envC1w "INBOX" false).trace.storeCalls ∧
      3 ∉ (processFolder envC1w "INBOX" false).trace.storeCalls := by
  have h := C1_amended_first_retained envC1w "INBOX" [1, 2, 3, 4]
    rfl rfl rfl rfl (by decide)
  refine ⟨h.1.trans (by decide), h.2.1.trans (by decide), ?_, ?_⟩
  · rw [h.2.1]
    decide
  · rw [h.2.1]
    decide

/-- C2, counterexample: on the snapshot `envC2x` (one duplicate pair, a
raising expunge) the dry run records `duplicatesFound = 1` but the live
run on the same snapshot records 0, so dry-run and live counts differ. -/
theorem C2_counterexample :
    (processFolder envC2x "INBOX" true).stats.duplicates = 1 ∧
      (processFolder envC2x "INBOX" false).stats.duplicates = 0 := by
  decide

/-- C2, amended: provided the live run's expunge does not raise, the dry
run records the same `duplicatesFound` as the live run on the same
snapshot, with `duplicatesDeleted = 0` and no store and no expunge call
issued in the dry run. -/
theorem C2_amended_dry_run_matches (env : FolderEnv) (f : String)
    (hx : env.expungeOk = true) :
    (processFolder env f true).stats.duplicates =
        (processFolder env f false).stats.duplicates ∧
      (processFolder env f true).stats.deleted = 0 ∧
      (processFolder env f true).trace.storeCalls = [] ∧
      (processFolder env f true).trace.expungeTried = false := by
  cases hc : env.connectOk
  · simp [processFolder, hc]
  · cases hs : env.selectOk
    · simp [processFolder, hc, hs]
    · cases hq : env.searchOut with
      | bad => simp [processFolder, hc, hs, hq]
      | exn => simp [processFolder, hc, hs, hq]
      | ok ids =>
        rw [processFolder_run_dry env f ids hc hs hq,
          processFolder_run_live env f ids hc hs hq hx]
        exact ⟨rfl, rfl, rfl, rfl⟩

/-- C2, witness: on the snapshot `envC2w` the dry run's duplicate count
matches the live run's and the dry run mutates nothing. -/
theorem C2_witness :
    (processFolder envC2w "INBOX" true).stats.duplicates =
        (processFolder envC2w "INBOX" false).stats.duplicates ∧
      (processFolder envC2w "INBOX" true).stats.deleted = 0 ∧
      (processFolder envC2w "INBOX" true).trace.storeCalls = [] ∧
      (processFolder envC2w "INBOX" true).trace.expungeTried = false :=
  C2_amended_dry_run_matches envC2w "INBOX" rfl

/-- C3, counterexample: when select fails the resolver returns the zeroed
stats with `errors = 0` — no error is recorded, contrary to the claim —
though the folder is indeed skipped. -/
theorem C3_counterexample :
    envC3x.selectOk = false ∧
      (processFolder envC3x "Old" false).stats.errors = 0 ∧
      (processFolder envC3x "Old" false).trace.searched = false := by
  decide

/-- C3, amended: when select fails (non-OK status or a raising select),
the resolver returns the zeroed FolderResult with NO error recorded
(`errors = 0`), and the folder is skipped entirely: no search, fetch,
store or expunge call is attempted, while the session is still
closed. -/
theorem C3_amended_select_fail (env : FolderEnv) (f : String) (dry : Bool)
    (hc : env.connectOk = true) (hs : env.selectOk = false) :
    processFolder env f dry = ⟨⟨f, 0, 0, 0, 0⟩, ⟨false, [], [], false, true⟩⟩ := by
  simp [processFolder, hc, hs]

/-- C3, witness: the amended behaviour at the concrete snapshot
`envC3w`. -/
theorem C3_witness :
    processFolder envC3w "Archive" false =
      ⟨⟨"Archive", 0, 0, 0, 0⟩, ⟨false, [], [], false, true⟩⟩ :=
  C3_amended_select_fail envC3w "Archive" false rfl rfl

/-- C4, counterexample: the all-ASCII folder name "&-" decodes to "&",
not to itself, so decode is not the identity on every ASCII name. -/
theorem C4_counterexample :
    ("&-").data.all (fun c => c.toNat ≤ 127) = true ∧
      decode_folder_name "&-" = "&" ∧ ("&" : String) ≠ "&-" := by
  decide

/-- C4, amended: for every folder name that does not contain the escape
marker `'&'` (in particular every such ASCII name), decode returns the
name unchanged. -/
theorem C4_amended_no_marker_unchanged (s : String)
    (h : s.data.contains '&' = false) : decode_folder_name s = s := by
  unfold decode_folder_name
  rw [if_neg]
  rw [h]
  exact Bool.false_ne_true

/-- C4, witness: the amended behaviour on the plain ASCII name
"Projects". -/
theorem C4_witness : decode_folder_name "Projects" = "Projects" :=
  C4_amended_no_marker_unchanged "Projects" (by decide)

/-- C5, counterexample: on `envC5x` both fetches return a non-OK status;
both messages fail to be fetched and are excluded from grouping, yet the
error counter stays 0 — a fetch failure that does not raise does not
increment the error count, contrary to the claim. -/
theorem C5_counterexample :
    fetchOf envC5x 1 = .bad ∧ fetchOf envC5x 2 = .bad ∧
      (processFolder envC5x "INBOX" true).stats.errors = 0 ∧
      (processFolder envC5x "INBOX" true).stats.total = 2 ∧
      groupIds (buildGroups envC5x [1, 2]) = [] := by
  decide

/-- C5, amended: every handle is fetched exactly once (no retry) and
processing continues across failures; a fetch that raises contributes one
error (the folder's error count is the number of raising fetches plus the
number of raising stores), while a fetch returning a non-OK status is
skipped silently; in both cases the message is excluded from grouping —
the grouped handles are exactly the successfully fetched ones. -/
theorem C5_amended_fetch_failures (env : FolderEnv) (f : String) (dry : Bool)
    (ids : List Nat) (hc : env.connectOk = true) (hs : env.selectOk = true)
    (hq : env.searchOut = .ok ids) (hx : env.expungeOk = true) :
    (processFolder env f dry).trace.fetchCalls = ids ∧
      (processFolder env f dry).stats.errors =
        (ids.filter (isFetchExn env)).length +
          (((processFolder env f dry).trace.storeCalls).filter
            (fun i => env.storeFails.contains i)).length ∧
      (∀ i : Nat, i ∈ groupIds (buildGroups env ids) ↔
        i ∈ ids.filter (isFetchOk env)) := by
  cases dry
  · rw [processFolder_run_live env f ids hc hs hq hx]
    exact ⟨rfl, rfl, fun i => (buildGroups_perm env ids).mem_iff⟩
  · rw [processFolder_run_dry env f ids hc hs hq]
    exact ⟨rfl, by simp, fun i => (buildGroups_perm env ids).mem_iff⟩

/-- C5, witness: on `envC5w` (fetches: ok, raising, non-OK, ok) the
verification run fetches all four handles, counts one error, and handle 3
is grouped exactly when it was fetched successfully. -/
theorem C5_witness :
    (processFolder envC5w "INBOX" true).trace.fetchCalls = [1, 2, 3, 4] ∧
      (processFolder envC5w "INBOX" true).stats.errors = 1 ∧
      (3 ∈ groupIds (buildGroups envC5w [1, 2, 3, 4]) ↔
        3 ∈ [1, 2, 3, 4].filter (isFetchOk envC5w)) := by
  have h := C5_amended_fetch_failures envC5w "INBOX" true [1, 2, 3, 4]
    rfl rfl rfl rfl
  refine ⟨h.1, ?_, h.2.2 3⟩
  rw [h.2.1]
  decide

/-- C6, counterexample: the digest is 128 bits, so the map from
from-header values to digests (the other three fields held fixed) cannot
be injective — there exist two tuples differing only in the From field
with the same fingerprint.  "Changing any one field changes the digest"
is therefore false of MD5 as such, although no explicit collision is
known. -/
theorem C6_counterexample : ∃ f₁ f₂ : String, f₁ ≠ f₂ ∧
    get_message_hash ⟨some f₁, some "s", some "d", some "m"⟩ =
      get_message_hash ⟨some f₂, some "s", some "d", some "m"⟩ := by
  obtain ⟨x, y, hxy, hF⟩ := Finite.exists_ne_map_eq_of_infinite
    (fun n : Nat => (⟨md5nat (utf8Encode (uniqueStr
      ⟨some (String.mk (List.replicate n 'a')), some "s", some "d", some "m"⟩)),
      md5nat_lt _⟩ : Fin (M32 ^ 4)))
  refine ⟨String.mk (List.replicate x 'a'), String.mk (List.replicate y 'a'), ?_, ?_⟩
  · intro he
    apply hxy
    have hlen := congrArg (fun s : String => s.data.length) he
    simpa using hlen
  · exact hash_eq_of_md5nat (congrArg Fin.val hF)

/-- C6, amended: the fingerprint is a deterministic function of the
(From, Subject, Date, Message-ID) tuple; a missing header contributes the
empty string; changing any one field changes the *hashed pre-image
string* `from|subject|date|messageId` (so digests of one-field variants
coincide only on an MD5 collision), and on the concrete fixture tuple
below changing each field individually does change the digest. -/
theorem C6_amended_fingerprint :
    (∀ m₁ m₂ : Msg, m₁.from_header = m₂.from_header → m₁.subject = m₂.subject →
      m₁.date = m₂.date → m₁.message_id = m₂.message_id →
      get_message_hash m₁ = get_message_hash m₂) ∧
    (∀ m : Msg, get_message_hash m = get_message_hash
      ⟨some (m.from_header.getD ""), some (m.subject.getD ""),
        some (m.date.getD ""), some (m.message_id.getD "")⟩) ∧
    (∀ f₁ f₂ s d mid : String, f₁ ≠ f₂ →
      uniqueStr ⟨some f₁, some s, some d, some mid⟩ ≠
        uniqueStr ⟨some f₂, some s, some d, some mid⟩) ∧
    (∀ f s₁ s₂ d mid : String, s₁ ≠ s₂ →
      uniqueStr ⟨some f, some s₁, some d, some mid⟩ ≠
        uniqueStr ⟨some f, some s₂, some d, some mid⟩) ∧
    (∀ f s d₁ d₂ mid : String, d₁ ≠ d₂ →
      uniqueStr ⟨some f, some s, some d₁, some mid⟩ ≠
        uniqueStr ⟨some f, some s, some d₂, some mid⟩) ∧
    (∀ f s d mid₁ mid₂ : String, mid₁ ≠ mid₂ →
      uniqueStr ⟨some f, some s, some d, some mid₁⟩ ≠
        uniqueStr ⟨some f, some s, some d, some mid₂⟩) ∧
    (get_message_hash ⟨some "alice@x", some "hello", some "Mon1", some "<id1@x>"⟩ ≠
      get_message_hash ⟨some "bob@x", some "hello", some "Mon1", some "<id1@x>"⟩) ∧
    (get_message_hash ⟨some "alice@x", some "hello", some "Mon1", some "<id1@x>"⟩ ≠
      get_message_hash ⟨some "alice@x", some "hullo", some "Mon1", some "<id1@x>"⟩) ∧
    (get_message_hash ⟨some "alice@x", some "hello", some "Mon1", some "<id1@x>"⟩ ≠
      get_message_hash ⟨some "alice@x", some "hello", some "Tue2", some "<id1@x>"⟩) ∧
    (get_message_hash ⟨some "alice@x", some "hello", some "Mon1", some "<id1@x>"⟩ ≠
      get_message_hash ⟨some "alice@x", some "hello", some "Mon1", some "<id2@x>"⟩) := by
  refine ⟨?_, ?_, uniqueStr_from_ne, uniqueStr_subject_ne, uniqueStr_date_ne,
    uniqueStr_mid_ne, by decide, by decide, by decide, by decide⟩
  · intro m₁ m₂ h1 h2 h3 h4
    have hm : m₁ = m₂ := by
      cases m₁
      cases m₂
      simp_all
    rw [hm]
  · intro m
    obtain ⟨f, s, d, mid⟩ := m
    cases f <;> cases s <;> cases d <;> cases mid <;> rfl

/-- C6, witness: the one-field-change property of the amended claim at a
concrete tuple: changing the From field from "a" to "b" changes the
hashed pre-image string. -/
theorem C6_witness :
    ("a" : String) ≠ "b" ∧
      uniqueStr ⟨some "a", some "s", some "d", some "m"⟩ ≠
        uniqueStr ⟨some "b", some "s", some "d", some "m"⟩ :=
  ⟨by decide, C6_amended_fingerprint.2.2.1 "a" "b" "s" "d" "m" (by decide)⟩

/-- C7: `decode_folder_name` is total by construction (every failing
payload is handled inside the scan), and when the payload of one escape
segment fails to decode, that segment — markers included — is preserved
verbatim in the output and decoding continues with the character after
the terminating dash. -/
theorem C7_decode_total_verbatim (pre seg post : List Char)
    (hpre : pre.contains '&' = false) (hseg : seg ≠ [])
    (hdash : seg.contains '-' = false)
    (hfail : payloadDecode seg = none) :
    decode_folder_name (String.mk (pre ++ '&' :: (seg ++ '-' :: post))) =
      String.mk (pre ++ '&' :: (seg ++ '-' :: scanList post)) := by
  unfold decode_folder_name
  rw [dataMk, if_pos (contains_amp pre (seg ++ '-' :: post))]
  have hstep2 : ∀ l : List Char, scanList ('&' :: l) = scanGo l ⟨[], some []⟩ := by
    intro l
    show scanGo l (scanStep ⟨[], none⟩ '&') = scanGo l ⟨[], some []⟩
    have hstep : scanStep ⟨[], none⟩ '&' = ⟨[], some []⟩ := by
      simp [scanStep]
    rw [hstep]
  have h3 := scanGo_collect seg [] ('-' :: post) hdash
  have h4 : scanGo ('-' :: post) ⟨[], some seg⟩ =
      ('&' :: seg ++ ['-']) ++ scanList post := by
    show scanGo post (scanStep ⟨[], some seg⟩ '-') = _
    have hstep : scanStep ⟨[], some seg⟩ '-' = ⟨'&' :: seg ++ ['-'], none⟩ := by
      simp [scanStep, hseg, hfail]
    rw [hstep, scanGo_acc0]
    rfl
  have hmain : scanList (pre ++ '&' :: (seg ++ '-' :: post)) =
      pre ++ '&' :: (seg ++ '-' :: scanList post) := by
    calc scanList (pre ++ '&' :: (seg ++ '-' :: post))
        = pre ++ scanList ('&' :: (seg ++ '-' :: post)) :=
          scanGo_nonAmp pre _ hpre
      _ = pre ++ scanGo (seg ++ '-' :: post) ⟨[], some []⟩ := by rw [hstep2]
      _ = pre ++ scanGo ('-' :: post) ⟨[], some ([] ++ seg)⟩ := by rw [h3]
      _ = pre ++ (('&' :: seg ++ ['-']) ++ scanList post) := by
          rw [List.nil_append, h4]
      _ = pre ++ '&' :: (seg ++ '-' :: scanList post) := by
          simp
  rw [hmain]

/-- C7, witness: the name "Ib-x" written as pre = "I", failing payload
"b", remainder "x": the segment "&b-" is preserved verbatim and the
scan continues on "x". -/
theorem C7_witness :
    (['I'] : List Char).contains '&' = false ∧ (['b'] : List Char) ≠ [] ∧
      (['b'] : List Char).contains '-' = false ∧ payloadDecode ['b'] = none ∧
      decode_folder_name (String.mk (['I'] ++ '&' :: (['b'] ++ '-' :: ['x']))) =
        String.mk (['I'] ++ '&' :: (['b'] ++ '-' :: scanList ['x'])) :=
  ⟨by decide, by decide, by decide, by decide,
    C7_decode_total_verbatim ['I'] ['b'] ['x']
      (by decide) (by decide) (by decide) (by decide)⟩

/-- C8: the resolver never raises past its boundary — it is a total
function into `FolderResult`, always labelled with the requested folder —
and the CLOSE step of the `finally` block runs exactly on the paths on
which `connect` returned a session, including every path on which a later
state raised (raising searches, fetches, stores and expunges are all
covered by the quantification over snapshots). -/
theorem C8_close_always (env : FolderEnv) (f : String) (dry : Bool) :
    (processFolder env f dry).trace.closed = env.connectOk ∧
      (processFolder env f dry).stats.folder = f := by
  cases hc : env.connectOk
  · simp [processFolder, hc]
  · cases hs : env.selectOk
    · simp [processFolder, hc, hs]
    · cases hq : env.searchOut with
      | bad => simp [processFolder, hc, hs, hq]
      | exn => simp [processFolder, hc, hs, hq]
      | ok ids =>
        by_cases hz : ids.length = 0
        · simp [processFolder, hc, hs, hq, hz]
        · cases dry
          · by_cases hdel : 0 < (dedupPhase env false
                (fetchPhase env ids ([], 0)).1 ⟨0, 0, [], 0⟩).deleted
            · cases hx : env.expungeOk
              · simp [processFolder, hc, hs, hq, hz, hdel, hx]
              · simp [processFolder, hc, hs, hq, hz, hdel, hx]
            · simp [processFolder, hc, hs, hq, hz, hdel]
          · simp [processFolder, hc, hs, hq, hz]

/-- C9: `totalMessages` equals the number of handles returned by SEARCH,
recorded before any fetch is attempted (it is unchanged by fetch, store
and expunge failures), and the grouped handles are a permutation of the
successfully fetched ones — a handle whose fetch fails or returns non-OK
stays counted in the total and is only excluded from grouping. -/
theorem C9_total_counts_search (env : FolderEnv) (f : String) (dry : Bool)
    (ids : List Nat) (hc : env.connectOk = true) (hs : env.selectOk = true)
    (hq : env.searchOut = .ok ids) :
    (processFolder env f dry).stats.total = ids.length ∧
      (groupIds (buildGroups env ids)).Perm (ids.filter (isFetchOk env)) := by
  refine ⟨?_, buildGroups_perm env ids⟩
  by_cases hz : ids.length = 0
  · simp [processFolder, hc, hs, hq, hz]
  · cases dry
    · by_cases hdel : 0 < (dedupPhase env false
          (fetchPhase env ids ([], 0)).1 ⟨0, 0, [], 0⟩).deleted
      · cases hx : env.expungeOk
        · simp [processFolder, hc, hs, hq, hz, hdel, hx]
        · simp [processFolder, hc, hs, hq, hz, hdel, hx]
      · simp [processFolder, hc, hs, hq, hz, hdel]
    · simp [processFolder, hc, hs, hq, hz]

/-- C9, witness: on `envC9w` (fetches ok / non-OK / raising) the total is
3 while only handle 1 is grouped. -/
theorem C9_witness :
    (processFolder envC9w "INBOX" true).stats.total = 3 ∧
      (groupIds (buildGroups envC9w [1, 2, 3])).Perm
        ([1, 2, 3].filter (isFetchOk envC9w)) := by
  have h := C9_total_counts_search envC9w "INBOX" true [1, 2, 3] rfl rfl rfl
  exact ⟨h.1, h.2⟩

/-- C10, counterexample: on `envC10x` (one duplicate pair, a raising
expunge) the live run reports `duplicatesDeleted = 0` although one
mark-for-deletion call succeeded — deleted does not always equal the
number of successful store calls. -/
theorem C10_counterexample :
    (processFolder envC10x "INBOX" false).stats.deleted = 0 ∧
      (((processFolder envC10x "INBOX" false).trace.storeCalls).filter
        (storeOkP envC10x)).length = 1 := by
  decide

/-- C10, amended: provided the expunge does not raise, every FolderResult
satisfies `duplicatesDeleted ≤ duplicatesFound`; `duplicatesDeleted`
equals the number of successful mark-for-deletion calls, so it is 0 in
dry-run mode, and in live mode it falls short of `duplicatesFound`
exactly by the number of failed marking attempts. -/
theorem C10_amended_deleted_bound (env : FolderEnv) (f : String) (dry : Bool)
    (hx : env.expungeOk = true) :
    (processFolder env f dry).stats.deleted ≤
        (processFolder env f dry).stats.duplicates ∧
      (processFolder env f dry).stats.deleted =
        (((processFolder env f dry).trace.storeCalls).filter (storeOkP env)).length ∧
      (dry = true → (processFolder env f dry).stats.deleted = 0) ∧
      (dry = false → (processFolder env f dry).stats.duplicates =
        (processFolder env f dry).stats.deleted +
          (((processFolder env f dry).trace.storeCalls).filter
            (fun i => env.storeFails.contains i)).length) := by
  cases hc : env.connectOk
  · simp [processFolder, hc]
  · cases hs : env.selectOk
    · simp [processFolder, hc, hs]
    · cases hq : env.searchOut with
      | bad => simp [processFolder, hc, hs, hq]
      | exn => simp [processFolder, hc, hs, hq]
      | ok ids =>
        cases dry
        · rw [processFolder_run_live env f ids hc hs hq hx]
          dsimp only
          have hlen := dupTargets_length (buildGroups env ids)
          refine ⟨?_, rfl, by simp, fun _ => ?_⟩
          · have h1 := List.length_filter_le (storeOkP env)
              (dupTargets (buildGroups env ids))
            omega
          · have hok : ((dupTargets (buildGroups env ids)).filter (storeOkP env)) =
                ((dupTargets (buildGroups env ids)).filter
                  (fun a => ! env.storeFails.contains a)) := rfl
            have hp := filterPartition (fun i => env.storeFails.contains i)
              (dupTargets (buildGroups env ids))
            rw [hok]
            omega
        · rw [processFolder_run_dry env f ids hc hs hq]
          exact ⟨Nat.zero_le _, by simp, fun _ => rfl, by simp⟩

/-- C10, witness: on `envC10w` (a triplicated message, the second store
raising) the live run deletes 1 of 2 found duplicates and the shortfall
is exactly the failed store. -/
theorem C10_witness :
    (processFolder envC10w "INBOX" false).stats.deleted ≤
        (processFolder envC10w "INBOX" false).stats.duplicates ∧
      (processFolder envC10w "INBOX" false).stats.deleted =
        (((processFolder envC10w "INBOX" false).trace.storeCalls).filter
          (storeOkP envC10w)).length ∧
      (processFolder envC10w "INBOX" false).stats.duplicates =
        (processFolder envC10w "INBOX" false).stats.deleted +
          (((processFolder envC10w "INBOX" false).trace.storeCalls).filter
            (fun i => envC10w.storeFails.contains i)).length := by
  have h := C10_amended_deleted_bound envC10w "INBOX" false rfl
  exact ⟨h.1, h.2.1, h.2.2.2 rfl⟩
